import Mathlib

/-!
# Verification of the xauto runtime core

Shallow embedding of the runtime core of the xauto browser-automation
harness (Python), together with proofs and refutations of the frozen
specification claims.

Conventions used throughout this development:

* Monotonic-clock timestamps (`time.monotonic()`) are modelled as integers
  (`ℤ`): the code only ever subtracts and compares them, so any ordered
  additive structure captures the behaviour in question.
* Percentage samples and histogram ratios are modelled as rationals (`ℚ`),
  the exact counterpart of the float arithmetic the code performs on them.
* Locks, logging and `psutil` process juggling have no effect on the
  abstract state and are not modelled.
* Exceptions are modelled by `Option`/branching: a raising operation leaves
  the state it had already mutated.
-/

namespace Xauto

/-! ## Ring buffer (`src/xauto/internal/thread_safe.py`, class `RingBuffer`)

`RingBuffer` keeps a FIFO `deque` (`buf`, front = oldest), a cached
`rolling_sum` (`sum`) and the capacity `max_size`.  The constructor rejects
`max_size ≤ 0`. -/

structure RingBuffer where
  maxSize : Nat
  buf : List ℚ
  sum : ℚ
deriving DecidableEq

/-- A freshly constructed `RingBuffer(max_size)`. -/
def RingBuffer.init (maxSize : Nat) : RingBuffer :=
  { maxSize := maxSize, buf := [], sum := 0 }

/-- Models `RingBuffer.append`: if the buffer is full the oldest element is popped
and subtracted from the rolling sum, then the new item is pushed and added.
(The `[]` case can only arise for `max_size = 0`, which the constructor
rejects; there Python would raise from `popleft` leaving the state
unchanged.) -/
def RingBuffer.append (r : RingBuffer) (x : ℚ) : RingBuffer :=
  if r.maxSize ≤ r.buf.length then
    match r.buf with
    | [] => r
    | evicted :: rest => { r with buf := rest ++ [x], sum := r.sum - evicted + x }
  else
    { r with buf := r.buf ++ [x], sum := r.sum + x }

/-- Python index normalisation: negative indices count from the end. -/
def pyNormIndex (n : Nat) (i : ℤ) : ℤ :=
  if i < 0 then i + n else i

/-- Python `list.pop(index)` semantics: out-of-range indices raise
(`none`), otherwise the element at the (normalised) index is removed. -/
def pyListPop (l : List ℚ) (i : ℤ) : Option (ℚ × List ℚ) :=
  if 0 ≤ pyNormIndex l.length i ∧ pyNormIndex l.length i < (l.length : ℤ) then
    some (l.getD (pyNormIndex l.length i).toNat 0,
      l.take (pyNormIndex l.length i).toNat ++ l.drop ((pyNormIndex l.length i).toNat + 1))
  else
    none

/-- Models `RingBuffer.pop(index)`: raises `IndexError` on an empty buffer or a bad
index (`none`, state unchanged); otherwise removes the selected element and
subtracts it from the rolling sum.  The three source branches (`popleft`,
right `pop`, generic `list.pop`) all agree with Python `list.pop`. -/
def RingBuffer.pop (r : RingBuffer) (i : ℤ) : Option (ℚ × RingBuffer) :=
  match pyListPop r.buf i with
  | none => none
  | some (v, rest) => some (v, { r with buf := rest, sum := r.sum - v })

/-- Models `RingBuffer.clear`. -/
def RingBuffer.clear (r : RingBuffer) : RingBuffer :=
  { r with buf := [], sum := 0 }

/-- One client operation on a ring buffer. -/
inductive RBOp where
  | append (x : ℚ)
  | pop (i : ℤ)
  | clear
deriving DecidableEq

/-- Effect of one operation; a raising `pop` leaves the buffer unchanged. -/
def RBOp.apply (r : RingBuffer) : RBOp → RingBuffer
  | .append x => r.append x
  | .pop i =>
      match r.pop i with
      | some (_, r2) => r2
      | none => r
  | .clear => r.clear

/-- Run a whole operation sequence from a fresh buffer. -/
def RingBuffer.run (maxSize : Nat) (ops : List RBOp) : RingBuffer :=
  ops.foldl RBOp.apply (RingBuffer.init maxSize)

/-- The ring-buffer representation invariant: positive capacity, bounded
length, and the cached rolling sum agrees with the stored elements. -/
def RingBuffer.inv (r : RingBuffer) : Prop :=
  0 < r.maxSize ∧ r.buf.length ≤ r.maxSize ∧ r.sum = r.buf.sum

lemma RingBuffer.inv_append {r : RingBuffer} (h : r.inv) (x : ℚ) :
    (r.append x).inv := by
  obtain ⟨hpos, hlen, hsum⟩ := h
  unfold RingBuffer.append
  by_cases hfull : r.maxSize ≤ r.buf.length
  · have hlen2 : r.buf.length = r.maxSize := le_antisymm hlen hfull
    rw [if_pos hfull]
    cases hbuf : r.buf with
    | nil =>
        exfalso
        rw [hbuf] at hlen2
        simp only [List.length_nil] at hlen2
        omega
    | cons evicted rest =>
        rw [hbuf] at hlen2
        simp only [List.length_cons] at hlen2
        refine ⟨hpos, ?_, ?_⟩
        · simp only [List.length_append, List.length_cons, List.length_nil]
          omega
        · rw [hsum, hbuf]
          simp only [List.sum_cons, List.sum_append, List.sum_nil]
          ring
  · rw [if_neg hfull]
    refine ⟨hpos, ?_, ?_⟩
    · simp only [List.length_append, List.length_cons, List.length_nil]
      omega
    · rw [hsum]
      simp [List.sum_append]

lemma RingBuffer.sum_take_drop (l : List ℚ) (k : Nat) (hk : k < l.length) :
    l.sum = (l.take k).sum + l.getD k 0 + (l.drop (k + 1)).sum := by
  conv_lhs => rw [← List.take_append_drop k l]
  rw [List.sum_append, List.drop_eq_getElem_cons hk, List.sum_cons,
    List.getD_eq_getElem l 0 hk]
  ring

lemma pyListPop_eq_some {l : List ℚ} {i : ℤ} {v : ℚ} {rest : List ℚ}
    (h : pyListPop l i = some (v, rest)) :
    ∃ k : Nat, k < l.length ∧ v = l.getD k 0 ∧
      rest = l.take k ++ l.drop (k + 1) := by
  unfold pyListPop at h
  by_cases hran : 0 ≤ pyNormIndex l.length i ∧ pyNormIndex l.length i < (l.length : ℤ)
  · rw [if_pos hran] at h
    simp only [Option.some.injEq, Prod.mk.injEq] at h
    exact ⟨(pyNormIndex l.length i).toNat, by omega, h.1.symm, h.2.symm⟩
  · rw [if_neg hran] at h
    exact absurd h (by simp)

lemma RingBuffer.inv_pop {r r2 : RingBuffer} {v : ℚ} {i : ℤ} (h : r.inv)
    (hp : r.pop i = some (v, r2)) : r2.inv := by
  obtain ⟨hpos, hlen, hsum⟩ := h
  unfold RingBuffer.pop at hp
  cases hpl : pyListPop r.buf i with
  | none => rw [hpl] at hp; exact absurd hp (by simp)
  | some p =>
      obtain ⟨w, rest⟩ := p
      rw [hpl] at hp
      simp only [Option.some.injEq, Prod.mk.injEq] at hp
      obtain ⟨hw, hr2⟩ := hp
      subst hw
      obtain ⟨k, hk, hv, hrest⟩ := pyListPop_eq_some hpl
      refine ⟨by rw [← hr2]; exact hpos, ?_, ?_⟩
      · rw [← hr2]
        simp only [hrest, List.length_append, List.length_take, List.length_drop]
        omega
      · rw [← hr2]
        simp only [hrest]
        rw [hsum, RingBuffer.sum_take_drop r.buf k hk, List.sum_append, hv]
        ring

lemma RingBuffer.inv_apply {r : RingBuffer} (h : r.inv) (op : RBOp) :
    (RBOp.apply r op).inv := by
  cases op with
  | append x => exact RingBuffer.inv_append h x
  | pop i =>
      simp only [RBOp.apply]
      cases hp : r.pop i with
      | none => exact h
      | some p =>
          obtain ⟨v, r2⟩ := p
          exact RingBuffer.inv_pop h hp
  | clear =>
      exact ⟨h.1, by simp [RBOp.apply, RingBuffer.clear], by simp [RBOp.apply, RingBuffer.clear]⟩

lemma RingBuffer.pop_maxSize {r r2 : RingBuffer} {v : ℚ} {i : ℤ}
    (hp : r.pop i = some (v, r2)) : r2.maxSize = r.maxSize := by
  unfold RingBuffer.pop at hp
  cases hpl : pyListPop r.buf i with
  | none => rw [hpl] at hp; exact absurd hp (by simp)
  | some q =>
      obtain ⟨w, rest⟩ := q
      rw [hpl] at hp
      simp only [Option.some.injEq, Prod.mk.injEq] at hp
      rw [← hp.2]

lemma RBOp.apply_maxSize (r : RingBuffer) (op : RBOp) :
    (RBOp.apply r op).maxSize = r.maxSize := by
  cases op with
  | append x =>
      simp only [RBOp.apply]
      unfold RingBuffer.append
      by_cases hfull : r.maxSize ≤ r.buf.length
      · rw [if_pos hfull]; cases r.buf <;> rfl
      · rw [if_neg hfull]
  | pop i =>
      simp only [RBOp.apply]
      cases hp : r.pop i with
      | none => rfl
      | some p =>
          obtain ⟨v, r2⟩ := p
          exact RingBuffer.pop_maxSize hp
  | clear => rfl

lemma RingBuffer.run_maxSize (maxSize : Nat) (ops : List RBOp) :
    (RingBuffer.run maxSize ops).maxSize = maxSize := by
  unfold RingBuffer.run
  have h0 : (RingBuffer.init maxSize).maxSize = maxSize := rfl
  generalize RingBuffer.init maxSize = r at h0 ⊢
  induction ops generalizing r with
  | nil => exact h0
  | cons op rest ih =>
      rw [List.foldl_cons]
      rw [ih (RBOp.apply r op) (by rw [RBOp.apply_maxSize, h0])]

lemma RingBuffer.inv_run (maxSize : Nat) (hpos : 0 < maxSize) (ops : List RBOp) :
    (RingBuffer.run maxSize ops).inv := by
  have h0 : (RingBuffer.init maxSize).inv :=
    ⟨hpos, by simp [RingBuffer.init], by simp [RingBuffer.init]⟩
  unfold RingBuffer.run
  generalize RingBuffer.init maxSize = r at h0 ⊢
  induction ops generalizing r with
  | nil => exact h0
  | cons op rest ih =>
      rw [List.foldl_cons]
      exact ih _ (RingBuffer.inv_apply h0 op)

lemma RingBuffer.append_full_evicts {r : RingBuffer} (x : ℚ)
    (hfull : r.buf.length = r.maxSize) (hpos : 0 < r.maxSize) :
    (r.append x).buf = r.buf.tail ++ [x] := by
  unfold RingBuffer.append
  rw [if_pos (le_of_eq hfull.symm)]
  cases hbuf : r.buf with
  | nil =>
      exfalso
      rw [hbuf] at hfull
      simp only [List.length_nil] at hfull
      omega
  | cons evicted rest => simp [hbuf]

/-- C10: for every `RingBuffer(max_size)` with `max_size > 0` and every
finite sequence of `append`/`pop`/`clear` operations, the stored length
never exceeds `max_size` and `rolling_sum` equals the sum of the stored
elements; moreover an `append` to a full buffer evicts exactly the oldest
element. -/
theorem ring_buffer_invariant (maxSize : Nat) (ops : List RBOp)
    (r : RingBuffer) (x : ℚ) (hpos : 0 < maxSize)
    (hfull : r.buf.length = r.maxSize) (hrpos : 0 < r.maxSize) :
    (RingBuffer.run maxSize ops).buf.length ≤ maxSize ∧
    (RingBuffer.run maxSize ops).sum = (RingBuffer.run maxSize ops).buf.sum ∧
    (r.append x).buf = r.buf.tail ++ [x] := by
  obtain ⟨-, h2, h3⟩ := RingBuffer.inv_run maxSize hpos ops
  rw [RingBuffer.run_maxSize maxSize ops] at h2
  exact ⟨h2, h3, RingBuffer.append_full_evicts x hfull hrpos⟩

/-- A concrete operation sequence exercising eviction, pop and clear. -/
def rbOpsEx : List RBOp :=
  [.append 1, .append 2, .append 3, .pop 0, .append 4, .clear, .append 5]

/-- A concrete full two-slot buffer. -/
def rbEx : RingBuffer := { maxSize := 2, buf := [5, 6], sum := 11 }

theorem ring_buffer_invariant_witness :
    0 < 2 ∧ rbEx.buf.length = rbEx.maxSize ∧ 0 < rbEx.maxSize ∧
    ((RingBuffer.run 2 rbOpsEx).buf.length ≤ 2 ∧
     (RingBuffer.run 2 rbOpsEx).sum = (RingBuffer.run 2 rbOpsEx).buf.sum ∧
     (rbEx.append 7).buf = rbEx.buf.tail ++ [7]) :=
  ⟨by decide, by decide, by decide,
   ring_buffer_invariant 2 rbOpsEx rbEx 7 (by decide) (by decide) (by decide)⟩

/-! ## Spawn budget (`src/xauto/internal/memory.py`, class `DriverSpawnBudget`)

`can_spawn(driver_pool)` receives the whole pool object but reads only its
`_spawn_blocked` attribute; the view below carries the other pool fields the
specification talks about (`in_use` count, `max_size`) to make that
explicit — `can_spawn` never consults them. -/

/-- The attributes of the `DriverPool` object visible to the budget and to
`can_create_driver` (`_spawn_blocked`, `_shutdown`), together with the
capacity fields `_in_use` and `_max_size` (`none` = unlimited/`inf`) that
`can_spawn` receives but never reads. -/
structure PoolView where
  spawnBlocked : Bool
  shutdown : Bool
  inUse : ℤ
  maxSize : Option Nat
deriving DecidableEq

/-- Mutable state of `DriverSpawnBudget`. -/
structure SpawnBudget where
  maxPerWindow : Nat
  windowSizeSec : ℤ
  spawnCount : Nat
  windowStart : ℤ
  lastSpawnTime : ℤ
  rateLimitedSpawnDelay : ℤ
deriving DecidableEq

/-- The window-reset step at the top of `can_spawn`: if more than
`window_size_sec` elapsed since `window_start`, zero the count and restart
the window. -/
def spawn_window_reset (b : SpawnBudget) (now : ℤ) : SpawnBudget :=
  if b.windowSizeSec < now - b.windowStart then
    { b with spawnCount := 0, windowStart := now }
  else
    b

/-- The part of `can_spawn` after the window-reset step (source lines
34-57), on the already-reset state `b1`. -/
def can_spawn_after_reset (b1 : SpawnBudget) (pool : PoolView) (now : ℤ) :
    Bool × SpawnBudget :=
  if b1.spawnCount < b1.maxPerWindow then
    if pool.spawnBlocked then
      (false, b1)
    else
      (true, { b1 with spawnCount := b1.spawnCount + 1, lastSpawnTime := now })
  else
    if ¬ pool.spawnBlocked then
      if b1.rateLimitedSpawnDelay ≤ now - b1.lastSpawnTime then
        (true, { b1 with spawnCount := b1.spawnCount + 1, lastSpawnTime := now })
      else
        (false, b1)
    else
      (false, b1)

/-- Models `DriverSpawnBudget.can_spawn(driver_pool)`: reset the window if it
elapsed; under budget, deny iff the pool is `_spawn_blocked`, else count and
allow; over budget, allow anyway (override) iff the pool is not
`_spawn_blocked` and at least `_rate_limited_spawn_delay` elapsed since the
last allowed spawn.  Returns the decision and the updated budget state. -/
def can_spawn (b : SpawnBudget) (pool : PoolView) (now : ℤ) : Bool × SpawnBudget :=
  can_spawn_after_reset (spawn_window_reset b now) pool now

/-- Models `DriverSpawnBudget.get_remaining(driver_pool)`: full budget after the
window elapsed, sentinel `999999` while the pool is not `_spawn_blocked`,
else the actual remainder. -/
def get_remaining (b : SpawnBudget) (pool : PoolView) (now : ℤ) : ℤ :=
  if b.windowSizeSec < now - b.windowStart then
    (b.maxPerWindow : ℤ)
  else if ¬ pool.spawnBlocked then
    999999
  else
    max 0 ((b.maxPerWindow : ℤ) - (b.spawnCount : ℤ))

/-- Models `DriverPool.can_create_driver` (`driver.py` lines 621-626):
`not _spawn_blocked and _spawn_budget.can_spawn(self) and not _shutdown`,
with Python short-circuit evaluation — `can_spawn` (and its state change)
happens only when `_spawn_blocked` is false, and the `_shutdown` test only
after `can_spawn` already returned (and possibly counted). -/
def can_create_driver (pool : PoolView) (b : SpawnBudget) (now : ℤ) :
    Bool × SpawnBudget :=
  if pool.spawnBlocked then
    (false, b)
  else
    match can_spawn b pool now with
    | (false, b2) => (false, b2)
    | (true, b2) => (if pool.shutdown then false else true, b2)

/-- The two budget-consulting entries of the `get_pool_stats` dictionary
(`driver.py` lines 628-642): `spawn_budget_remaining` via `get_remaining`
and `can_create_driver` via a fresh call to `can_create_driver`; the other
entries are pure reads of counters.  Returns those two entries and the
budget state after the call. -/
def get_pool_stats (pool : PoolView) (b : SpawnBudget) (now : ℤ) :
    (ℤ × Bool) × SpawnBudget :=
  let remaining := get_remaining b pool now
  match can_create_driver pool b now with
  | (ok, b2) => ((remaining, ok), b2)

/-- Run a sequence of `can_spawn` requests at given times against an
unchanging pool view, collecting the decisions. -/
def can_spawn_run (b : SpawnBudget) (pool : PoolView) :
    List ℤ → List Bool × SpawnBudget
  | [] => ([], b)
  | now :: rest =>
      match can_spawn b pool now with
      | (ok, b2) =>
          match can_spawn_run b2 pool rest with
          | (oks, b3) => (ok :: oks, b3)

/-- A budget configured `{max_per_window = 3, window_size_sec = 60}` with
`rate_limited_spawn_delay = 5`, as in the boundary behaviour of the claim. -/
def budgetEx : SpawnBudget :=
  { maxPerWindow := 3, windowSizeSec := 60, spawnCount := 0,
    windowStart := 0, lastSpawnTime := 0, rateLimitedSpawnDelay := 5 }

/-- An unblocked, running pool view. -/
def poolViewEx : PoolView :=
  { spawnBlocked := false, shutdown := false, inUse := 0, maxSize := some 10 }

/-- C4 counterexample: with `max_per_window = 3`, `window = 60` and the pool
not spawn-blocked, four requests at times 0, 1, 2 and 10 — all inside one
60-second window — are ALL allowed: the fourth is granted through the
rate-limited override branch (10 − 2 ≥ 5), so the number of allowed spawns
in a rolling window is not bounded by `max_per_window` and a 4th spawn
within the window is not necessarily denied. -/
theorem spawn_budget_window_counterexample :
    (can_spawn_run budgetEx poolViewEx [0, 1, 2, 10]).1 =
      [true, true, true, true] ∧
    (can_spawn_run budgetEx poolViewEx [0, 1, 2, 10]).2.spawnCount = 4 := by
  decide

/-- C4 (amended): at most `max_per_window` requests are granted through the
primary budget path; once `spawn_count` has reached `max_per_window` within
the current window, a further request is granted iff the pool is not
spawn-blocked and at least `rate_limited_spawn_delay` has elapsed since the
last granted spawn; and once the window has elapsed the count is reset, so
the next request of an unblocked pool is granted. -/
theorem can_spawn_override_semantics (b : SpawnBudget) (pool : PoolView) (now : ℤ)
    (hwin : now - b.windowStart ≤ b.windowSizeSec)
    (hexh : b.maxPerWindow ≤ b.spawnCount) :
    ((can_spawn b pool now).1 = true ↔
      pool.spawnBlocked = false ∧ b.rateLimitedSpawnDelay ≤ now - b.lastSpawnTime) ∧
    (∀ (b2 : SpawnBudget) (pool2 : PoolView) (t : ℤ),
      b2.windowSizeSec < t - b2.windowStart → 0 < b2.maxPerWindow →
      pool2.spawnBlocked = false → (can_spawn b2 pool2 t).1 = true) := by
  constructor
  · have hres : spawn_window_reset b now = b := by
      unfold spawn_window_reset
      rw [if_neg (by omega)]
    unfold can_spawn
    rw [hres]
    unfold can_spawn_after_reset
    rw [if_neg (by omega)]
    by_cases hb : pool.spawnBlocked
    · rw [if_neg (by simp [hb])]
      simp [hb]
    · rw [if_pos (by simp [hb])]
      by_cases hd : b.rateLimitedSpawnDelay ≤ now - b.lastSpawnTime
      · rw [if_pos hd]
        simp [hb, hd]
      · rw [if_neg hd]
        simp [hb, hd]
  · intro b2 pool2 t hreset hmax hb
    have hres : spawn_window_reset b2 t =
        { b2 with spawnCount := 0, windowStart := t } := by
      unfold spawn_window_reset
      rw [if_pos hreset]
    unfold can_spawn
    rw [hres]
    unfold can_spawn_after_reset
    rw [if_pos (by simpa using hmax)]
    rw [if_neg (by simp [hb])]

/-- The budget state after the three rapid grants of `budgetEx`. -/
def budgetOverEx : SpawnBudget :=
  { maxPerWindow := 3, windowSizeSec := 60, spawnCount := 3,
    windowStart := 0, lastSpawnTime := 2, rateLimitedSpawnDelay := 5 }

theorem can_spawn_override_semantics_witness :
    (11 : ℤ) - budgetOverEx.windowStart ≤ budgetOverEx.windowSizeSec ∧
    budgetOverEx.maxPerWindow ≤ budgetOverEx.spawnCount ∧
    (((can_spawn budgetOverEx poolViewEx 11).1 = true ↔
        poolViewEx.spawnBlocked = false ∧
        budgetOverEx.rateLimitedSpawnDelay ≤ 11 - budgetOverEx.lastSpawnTime) ∧
     (∀ (b2 : SpawnBudget) (pool2 : PoolView) (t : ℤ),
        b2.windowSizeSec < t - b2.windowStart → 0 < b2.maxPerWindow →
        pool2.spawnBlocked = false → (can_spawn b2 pool2 t).1 = true)) :=
  ⟨by decide, by decide,
   can_spawn_override_semantics budgetOverEx poolViewEx 11 (by decide) (by decide)⟩

/-- A pool view whose in-use count (5) is far above its capacity (1), not
spawn-blocked. -/
def poolViewOverCapacity : PoolView :=
  { spawnBlocked := false, shutdown := false, inUse := 5, maxSize := some 1 }

/-- C5 counterexample: with the pool's in-use count (5) at or above its
`max_size` (1), a fresh budget still grants the spawn request — `can_spawn`
performs no check of the pool's in-use count against `max_size` (capacity is
enforced elsewhere, by `get_driver` via `created < _max_size`). -/
theorem can_spawn_ignores_pool_capacity_counterexample :
    (poolViewOverCapacity.maxSize = some 1 ∧
      (1 : ℤ) ≤ poolViewOverCapacity.inUse ∧
      poolViewOverCapacity.spawnBlocked = false) ∧
    (can_spawn budgetEx poolViewOverCapacity 1).1 = true := by
  decide

/-- C5 (amended): `can_spawn` reads only the pool's `_spawn_blocked` flag
and denies whenever it is set, in both the under-budget and the over-budget
branch; it never consults the pool's in-use count or `max_size`. -/
theorem can_spawn_denies_when_spawn_blocked (b : SpawnBudget) (pool : PoolView)
    (now : ℤ) (hb : pool.spawnBlocked = true) :
    (can_spawn b pool now).1 = false := by
  unfold can_spawn can_spawn_after_reset
  by_cases hcnt : (spawn_window_reset b now).spawnCount <
      (spawn_window_reset b now).maxPerWindow
  · rw [if_pos hcnt, if_pos hb]
  · rw [if_neg hcnt, if_neg (by simp [hb])]

theorem can_spawn_denies_when_spawn_blocked_witness :
    ({ spawnBlocked := true, shutdown := false, inUse := 0,
        maxSize := some 10 : PoolView }).spawnBlocked = true ∧
    (can_spawn budgetEx
      { spawnBlocked := true, shutdown := false, inUse := 0,
        maxSize := some 10 } 1).1 = false :=
  ⟨by decide,
   can_spawn_denies_when_spawn_blocked budgetEx
     { spawnBlocked := true, shutdown := false, inUse := 0,
       maxSize := some 10 } 1 (by decide)⟩

/-- C9: `can_create_driver` is not a pure observation.  If the pool is
neither shut down nor spawn-blocked and the budget window is not exhausted
(after the reset that `can_spawn` itself performs), the call returns `true`
AND increments the budget's `spawn_count` and stamps `last_spawn_time :=
now`; `get_pool_stats` makes exactly such a call for its
`can_create_driver` entry, so asking for stats consumes the same budget,
with no driver created anywhere in either function. -/
theorem can_create_driver_consumes_budget (pool : PoolView) (b : SpawnBudget)
    (now : ℤ) (hsd : pool.shutdown = false) (hbl : pool.spawnBlocked = false)
    (hcnt : (spawn_window_reset b now).spawnCount <
      (spawn_window_reset b now).maxPerWindow) :
    (can_create_driver pool b now).1 = true ∧
    (can_create_driver pool b now).2.spawnCount =
      (spawn_window_reset b now).spawnCount + 1 ∧
    (can_create_driver pool b now).2.lastSpawnTime = now ∧
    (get_pool_stats pool b now).2 = (can_create_driver pool b now).2 ∧
    (get_pool_stats pool b now).1.2 = true := by
  have hspawn : can_spawn b pool now =
      (true, { spawn_window_reset b now with
        spawnCount := (spawn_window_reset b now).spawnCount + 1,
        lastSpawnTime := now }) := by
    unfold can_spawn can_spawn_after_reset
    rw [if_pos hcnt, if_neg (by simp [hbl])]
  have hccd : can_create_driver pool b now =
      (true, { spawn_window_reset b now with
        spawnCount := (spawn_window_reset b now).spawnCount + 1,
        lastSpawnTime := now }) := by
    unfold can_create_driver
    rw [if_neg (by simp [hbl]), hspawn]
    simp [hsd]
  refine ⟨by rw [hccd], by rw [hccd], by rw [hccd], ?_, ?_⟩
  · unfold get_pool_stats
    rw [hccd]
  · unfold get_pool_stats
    rw [hccd]

theorem can_create_driver_consumes_budget_witness :
    poolViewEx.shutdown = false ∧ poolViewEx.spawnBlocked = false ∧
    (spawn_window_reset budgetEx 1).spawnCount <
      (spawn_window_reset budgetEx 1).maxPerWindow ∧
    ((can_create_driver poolViewEx budgetEx 1).1 = true ∧
     (can_create_driver poolViewEx budgetEx 1).2.spawnCount =
       (spawn_window_reset budgetEx 1).spawnCount + 1 ∧
     (can_create_driver poolViewEx budgetEx 1).2.lastSpawnTime = 1 ∧
     (get_pool_stats poolViewEx budgetEx 1).2 =
       (can_create_driver poolViewEx budgetEx 1).2 ∧
     (get_pool_stats poolViewEx budgetEx 1).1.2 = true) :=
  ⟨by decide, by decide, by decide,
   can_create_driver_consumes_budget poolViewEx budgetEx 1
     (by decide) (by decide) (by decide)⟩

/-! ## Driver pool (`src/xauto/internal/geckodriver/driver.py`, class `DriverPool`)

State of one `DriverPool`.  `info` models `_info` (and the id-synchronised
`_driver_objects`: both get an entry in `_create_driver` and both are popped
in `_destroy`), keyed by `id(drv)`.  `pool` models the idle FIFO `_pool`
(front = next `get`).  Drivers are identified by their ids (naturals).
`errors` and `termination_failures` are not modelled: none of the operations
below touches them on its exception-free path. -/

/-- Models `DriverInfo` (`src/xauto/internal/dataclasses.py`): `last_access = 0`
means idle-in-pool, positive means checked out. -/
structure DriverRecord where
  pids : List Nat
  lastAccess : ℤ
  heapTimestamp : ℤ
  failureCount : Nat
deriving DecidableEq

structure DriverPoolSt where
  info : List (Nat × DriverRecord)
  pool : List Nat
  queueMaxSize : Nat
  inUse : ℤ
  created : ℤ
  shutdown : Bool
deriving DecidableEq

/-- Models `info = self._info.get(id); if info: info.last_access = t` — a no-op
when the record is missing. -/
def set_last_access (s : DriverPoolSt) (did : Nat) (t : ℤ) : DriverPoolSt :=
  { s with info := s.info.map (fun p => if p.1 = did then (p.1, { p.2 with lastAccess := t }) else p) }

/-- Models `get_driver` when the idle queue yields a driver: stamp `last_access`
and increment `_in_use` (the final `with self._lock` block of `get_driver`).
`[]` stands for the queue timing out, in which case this path is not taken. -/
def get_driver_reuse (s : DriverPoolSt) (now : ℤ) : DriverPoolSt :=
  match s.pool with
  | [] => s
  | did :: rest =>
      { set_last_access s did now with pool := rest, inUse := s.inUse + 1 }

/-- Models `get_driver` on the empty-queue path, after `_create_driver_with_retries`
succeeded: `_create_driver` registers the record (with `last_access` already
stamped) and increments `_created`; then the shared tail of `get_driver`
stamps `last_access` again and increments `_in_use`. -/
def get_driver_create (s : DriverPoolSt) (did : Nat) (pids : List Nat)
    (now : ℤ) : DriverPoolSt :=
  { set_last_access
      { s with
        info := s.info ++
          [(did, { pids := pids, lastAccess := now, heapTimestamp := now,
                   failureCount := 0 })],
        created := s.created + 1 }
      did now
    with inUse := s.inUse + 1 }

/-- Models `DriverPool._destroy`: pop the record (and the driver object) and
decrement `_in_use` — unconditionally, whatever `last_access` was; the idle
queue `_pool` is not touched.  `driver.quit()` and PID termination are
external effects. -/
def destroy (s : DriverPoolSt) (did : Nat) : DriverPoolSt :=
  { s with info := s.info.filter (fun p => p.1 ≠ did),
           inUse := s.inUse - 1 }

/-- Models `DriverPool.return_driver`: zero `last_access`, decrement `_in_use`,
then `put_nowait`; if the queue is full (`qsize ≥ maxsize`) the `Full`
handler destroys the driver instead. -/
def return_driver (s : DriverPoolSt) (did : Nat) : DriverPoolSt :=
  if s.queueMaxSize ≤ (set_last_access s did 0).pool.length then
    destroy { set_last_access s did 0 with inUse := s.inUse - 1 } did
  else
    { set_last_access s did 0 with inUse := s.inUse - 1, pool := s.pool ++ [did] }

/-- Models `DriverPool.cleanup_idle_drivers(max_idle_time)`: collect the records
with `last_access == 0` idle longer than `max_idle_time`, then `_destroy`
each of them. -/
def cleanup_idle_drivers (s : DriverPoolSt) (maxIdleTime now : ℤ) :
    DriverPoolSt :=
  if s.shutdown then s
  else
    ((s.info.filter
        (fun p => p.2.lastAccess = 0 ∧ maxIdleTime < now - p.2.heapTimestamp)).map
      Prod.fst).foldl destroy s

/-- Second phase of `close_all`: destroy every driver still registered in
`_driver_objects` (those already destroyed while draining are gone). -/
def close_all_destroy_known (s : DriverPoolSt) : DriverPoolSt :=
  (s.info.map Prod.fst).foldl destroy s

/-- Models `DriverPool.close_all`: no-op when already shut down; otherwise set
`_shutdown`, drain the idle queue destroying each drained driver
(`_destroy` never reads the queue, so draining first and then destroying
the drained ids is the sequential behaviour), then destroy every remaining
known driver.  The residual-process sweep has no pool-state effect. -/
def close_all (s : DriverPoolSt) : DriverPoolSt :=
  if s.shutdown then s
  else
    close_all_destroy_known
      (s.pool.foldl destroy { s with shutdown := true, pool := [] })

/-- The number of records whose `last_access` is positive (checked out). -/
def active_records (s : DriverPoolSt) : ℤ :=
  ((s.info.filter (fun p => 0 < p.2.lastAccess)).length : ℤ)

/-- The claimed pool invariant: `in_use` equals the number of records with
`last_access > 0`. -/
def in_use_invariant (s : DriverPoolSt) : Prop :=
  s.inUse = active_records s

instance (s : DriverPoolSt) : Decidable (in_use_invariant s) := by
  unfold in_use_invariant
  infer_instance

/-- The empty pool with queue capacity 1 (`driver_limit = 1`). -/
def poolSt0 : DriverPoolSt :=
  { info := [], pool := [], queueMaxSize := 1, inUse := 0, created := 0,
    shutdown := false }

/-- C3 counterexample: starting from the empty pool with capacity 1, create
and check out driver 1 (invariant holds), return it (invariant holds, driver
idle in the queue), then run `cleanup_idle_drivers(5)` at time 20: the idle
record is destroyed and `_destroy` decrements `_in_use` although the record
being removed had `last_access = 0`, leaving `in_use = -1` while no record
has `last_access > 0`.  The queue-full path of `return_driver` breaks the
equality the same way: returning driver 2 while the one-slot queue already
holds driver 1 destroys driver 2 after its `last_access` was already zeroed
and `_in_use` already decremented, decrementing `_in_use` a second time. -/
theorem in_use_invariant_counterexample :
    in_use_invariant (get_driver_create poolSt0 1 [101] 10) ∧
    in_use_invariant (return_driver (get_driver_create poolSt0 1 [101] 10) 1) ∧
    ¬ in_use_invariant
      (cleanup_idle_drivers
        (return_driver (get_driver_create poolSt0 1 [101] 10) 1) 5 20) ∧
    (cleanup_idle_drivers
      (return_driver (get_driver_create poolSt0 1 [101] 10) 1) 5 20).inUse = -1 ∧
    active_records
      (cleanup_idle_drivers
        (return_driver (get_driver_create poolSt0 1 [101] 10) 1) 5 20) = 0 ∧
    ¬ in_use_invariant
      (return_driver
        (get_driver_create
          (return_driver (get_driver_create poolSt0 1 [101] 10) 1) 2 [102] 11)
        2) := by
  decide

lemma map_set_id (l : List (Nat × DriverRecord)) (did : Nat) (t : ℤ)
    (h : did ∉ l.map Prod.fst) :
    l.map (fun p => if p.1 = did then (p.1, { p.2 with lastAccess := t }) else p) = l := by
  induction l with
  | nil => rfl
  | cons p rest ih =>
      simp only [List.map_cons, List.mem_cons, not_or] at h
      obtain ⟨hne, hrest⟩ := h
      rw [List.map_cons, if_neg (fun hc => hne hc.symm), ih hrest]

lemma set_last_access_decomp (s : DriverPoolSt) (l1 l2 : List (Nat × DriverRecord))
    (did : Nat) (rec : DriverRecord) (t : ℤ)
    (hinfo : s.info = l1 ++ (did, rec) :: l2)
    (h1 : did ∉ l1.map Prod.fst) (h2 : did ∉ l2.map Prod.fst) :
    (set_last_access s did t).info = l1 ++ (did, { rec with lastAccess := t }) :: l2 := by
  unfold set_last_access
  simp only [hinfo, List.map_append, List.map_cons]
  rw [map_set_id l1 did t h1, map_set_id l2 did t h2]
  simp

lemma filter_ne_decomp (l1 l2 : List (Nat × DriverRecord)) (did : Nat)
    (rec : DriverRecord) (h1 : did ∉ l1.map Prod.fst) (h2 : did ∉ l2.map Prod.fst) :
    (l1 ++ (did, rec) :: l2).filter (fun p => p.1 ≠ did) = l1 ++ l2 := by
  rw [List.filter_append, List.filter_cons]
  rw [if_neg (by simp)]
  rw [List.filter_eq_self.mpr, List.filter_eq_self.mpr]
  · intro a ha
    simp only [decide_eq_true_eq]
    intro hc
    exact h2 (by rw [← hc]; exact List.mem_map_of_mem Prod.fst ha)
  · intro a ha
    simp only [decide_eq_true_eq]
    intro hc
    exact h1 (by rw [← hc]; exact List.mem_map_of_mem Prod.fst ha)

/-- Length (as an integer) of the checked-out records in a record list. -/
def activeLen (l : List (Nat × DriverRecord)) : ℤ :=
  ((l.filter (fun p => 0 < p.2.lastAccess)).length : ℤ)

lemma activeLen_append (l1 l2 : List (Nat × DriverRecord)) :
    activeLen (l1 ++ l2) = activeLen l1 + activeLen l2 := by
  unfold activeLen
  rw [List.filter_append, List.length_append]
  push_cast
  ring

lemma activeLen_cons (p : Nat × DriverRecord) (l : List (Nat × DriverRecord)) :
    activeLen (p :: l) =
      (if 0 < p.2.lastAccess then 1 else 0) + activeLen l := by
  unfold activeLen
  rw [List.filter_cons]
  by_cases hp : 0 < p.2.lastAccess
  · rw [if_pos (by simpa using hp), if_pos hp, List.length_cons]
    push_cast
    ring
  · rw [if_neg (by simpa using hp), if_neg hp]
    ring

lemma activeLen_nil : activeLen [] = 0 := rfl

lemma active_records_eq (s : DriverPoolSt) : active_records s = activeLen s.info := rfl

/-- C3 (amended): the equality `in_use = |{records : last_access > 0}|` is
preserved by `get_driver` — both on the create path (fresh id) and on the
reuse path (front of the idle queue holding a record with
`last_access = 0`) —, by `_destroy` of a driver whose record is checked out
(`last_access > 0`), and by `return_driver` of a checked-out driver when
the idle queue has room.  It is NOT preserved when `_destroy` runs on a
record with `last_access = 0` (the queue-full path of `return_driver` and
`cleanup_idle_drivers`), since `_destroy` decrements `in_use`
unconditionally (see the counterexample). -/
theorem in_use_invariant_partial_preservation :
    (∀ (s : DriverPoolSt) (did : Nat) (pids : List Nat) (now : ℤ),
      did ∉ s.info.map Prod.fst → 0 < now → in_use_invariant s →
      in_use_invariant (get_driver_create s did pids now)) ∧
    (∀ (s : DriverPoolSt) (l1 l2 : List (Nat × DriverRecord)) (did : Nat)
        (rec : DriverRecord) (rest : List Nat) (now : ℤ),
      s.info = l1 ++ (did, rec) :: l2 → did ∉ l1.map Prod.fst →
      did ∉ l2.map Prod.fst → rec.lastAccess = 0 → s.pool = did :: rest →
      0 < now → in_use_invariant s →
      in_use_invariant (get_driver_reuse s now)) ∧
    (∀ (s : DriverPoolSt) (l1 l2 : List (Nat × DriverRecord)) (did : Nat)
        (rec : DriverRecord),
      s.info = l1 ++ (did, rec) :: l2 → did ∉ l1.map Prod.fst →
      did ∉ l2.map Prod.fst → 0 < rec.lastAccess → in_use_invariant s →
      in_use_invariant (destroy s did)) ∧
    (∀ (s : DriverPoolSt) (l1 l2 : List (Nat × DriverRecord)) (did : Nat)
        (rec : DriverRecord),
      s.info = l1 ++ (did, rec) :: l2 → did ∉ l1.map Prod.fst →
      did ∉ l2.map Prod.fst → 0 < rec.lastAccess →
      s.pool.length < s.queueMaxSize → in_use_invariant s →
      in_use_invariant (return_driver s did)) := by
  refine ⟨?_, ?_, ?_, ?_⟩
  · intro s did pids now hfresh hnow hinv
    unfold in_use_invariant at hinv ⊢
    unfold get_driver_create
    have hdecomp := set_last_access_decomp
      { s with
        info := s.info ++
          [(did, { pids := pids, lastAccess := now, heapTimestamp := now,
                   failureCount := 0 })],
        created := s.created + 1 }
      s.info [] did
      { pids := pids, lastAccess := now, heapTimestamp := now, failureCount := 0 }
      now (by simp) hfresh (by simp)
    rw [active_records_eq] at hinv ⊢
    simp only [hdecomp, activeLen_append, activeLen_cons, activeLen_nil]
    rw [if_pos (by simpa using hnow)]
    omega
  · intro s l1 l2 did rec rest now hinfo h1 h2 hidle hpool hnow hinv
    unfold in_use_invariant at hinv ⊢
    unfold get_driver_reuse
    rw [hpool]
    have hdecomp := set_last_access_decomp s l1 l2 did rec now hinfo h1 h2
    rw [active_records_eq] at hinv ⊢
    simp only [hdecomp, activeLen_append, activeLen_cons]
    rw [hinfo] at hinv
    simp only [activeLen_append, activeLen_cons] at hinv
    rw [if_pos (by simpa using hnow)]
    rw [if_neg (by simp [hidle])] at hinv
    omega
  · intro s l1 l2 did rec hinfo h1 h2 hact hinv
    unfold in_use_invariant at hinv ⊢
    unfold destroy
    rw [active_records_eq] at hinv ⊢
    simp only [hinfo, filter_ne_decomp l1 l2 did rec h1 h2, activeLen_append]
    rw [hinfo] at hinv
    simp only [activeLen_append, activeLen_cons] at hinv
    rw [if_pos (by simpa using hact)] at hinv
    omega
  · intro s l1 l2 did rec hinfo h1 h2 hact hroom hinv
    unfold in_use_invariant at hinv ⊢
    unfold return_driver
    have hdecomp := set_last_access_decomp s l1 l2 did rec 0 hinfo h1 h2
    have hpoollen : (set_last_access s did 0).pool.length = s.pool.length := rfl
    rw [if_neg (by rw [hpoollen]; omega)]
    rw [active_records_eq] at hinv ⊢
    simp only [hdecomp, activeLen_append, activeLen_cons]
    rw [hinfo] at hinv
    simp only [activeLen_append, activeLen_cons] at hinv
    rw [if_pos (by simpa using hact)] at hinv
    rw [if_neg (by simp)]
    omega

/-- Concrete decomposition instance for the preservation witness: the pool
holding exactly one checked-out driver. -/
def poolStBusy : DriverPoolSt :=
  { info := [(1, { pids := [101], lastAccess := 10, heapTimestamp := 10,
                   failureCount := 0 })],
    pool := [], queueMaxSize := 1, inUse := 1, created := 1,
    shutdown := false }

theorem in_use_invariant_partial_preservation_witness :
    poolStBusy.info =
      [] ++ (1, { pids := [101], lastAccess := 10, heapTimestamp := 10,
                  failureCount := 0 }) :: [] ∧
    (1 : Nat) ∉ ([] : List (Nat × DriverRecord)).map Prod.fst ∧
    (0 : ℤ) < ({ pids := [101], lastAccess := 10, heapTimestamp := 10,
                 failureCount := 0 : DriverRecord }).lastAccess ∧
    in_use_invariant poolStBusy ∧
    in_use_invariant (destroy poolStBusy 1) :=
  ⟨by decide, by decide, by decide, by decide,
   (in_use_invariant_partial_preservation.2.2.1) poolStBusy [] [] 1
     { pids := [101], lastAccess := 10, heapTimestamp := 10, failureCount := 0 }
     (by decide) (by decide) (by decide) (by decide) (by decide)⟩

lemma destroy_shutdown (s : DriverPoolSt) (did : Nat) :
    (destroy s did).shutdown = s.shutdown := rfl

lemma foldl_destroy_shutdown (l : List Nat) (s : DriverPoolSt) :
    (l.foldl destroy s).shutdown = s.shutdown := by
  induction l generalizing s with
  | nil => rfl
  | cons did rest ih => rw [List.foldl_cons, ih, destroy_shutdown]

lemma close_all_shutdown (s : DriverPoolSt) : (close_all s).shutdown = true := by
  unfold close_all
  by_cases h : s.shutdown
  · rw [if_pos h]; exact h
  · rw [if_neg h]
    unfold close_all_destroy_known
    rw [foldl_destroy_shutdown, foldl_destroy_shutdown]

/-- C8: `close_all` is idempotent — the second call sees `_shutdown = True`
and returns immediately, so it changes nothing: no counter is decremented
again. -/
theorem close_all_idempotent (s : DriverPoolSt) :
    close_all (close_all s) = close_all s := by
  have h2 : ∀ t : DriverPoolSt, t.shutdown = true → close_all t = t := by
    intro t ht
    unfold close_all
    rw [if_pos ht]
  exact h2 (close_all s) (close_all_shutdown s)

/-! ## Memory monitor (`src/xauto/internal/memory.py`, class `MemoryMonitor`)

The histogram update of `_update_stats` (lines 285-288) and the
`check_load` transition logic (lines 349-392), plus the independent
`resource_pressure_monitor` loop decision (lines 504-518). -/

/-- Models `self._histogram_bins = 20`. -/
def histogram_bins : Nat := 20

/-- Models `min(int(percent // 5), bins - 1)` — the bin index a sample falls in
(`//` is float floor division). -/
def sample_bin (percent : ℚ) (bins : Nat) : ℤ :=
  min ⌊percent / 5⌋ ((bins : ℤ) - 1)

/-- Python list index semantics for `hist[i] += 1`: negative indices wrap
from the end, indices out of `[-n, n)` raise (`none`). -/
def pyListIndex (n : Nat) (i : ℤ) : Option Nat :=
  if 0 ≤ i ∧ i < (n : ℤ) then some i.toNat
  else if -(n : ℤ) ≤ i ∧ i < 0 then some (i + (n : ℤ)).toNat
  else none

/-- The histogram step of `_update_stats`: `hist[bin] += 1` for the bin the
sample falls in; every other bin is left alone.  (An out-of-range index
raises inside the `try`, leaving the histogram unchanged.) -/
def histogram_update (hist : List Nat) (percent : ℚ) : List Nat :=
  match pyListIndex hist.length (sample_bin percent histogram_bins) with
  | some j => hist.set j (hist.getD j 0 + 1)
  | none => hist

/-- Models `⌊h × 0.9⌋` — the decay the SPECIFICATION postulates per bin. -/
def decay (h : Nat) : Nat :=
  Nat.floor ((h : ℚ) * (9 / 10))

/-- Modelled from the spec (for the refutation only): the decayed update
rule the specification states, `hist[i] = ⌊hist[i] × 0.9⌋ + (1 if this
sample falls in bin i)`.  The source has no such decay. -/
def histogram_update_spec (hist : List Nat) (percent : ℚ) : List Nat :=
  hist.mapIdx (fun i h =>
    decay h +
      (if pyListIndex hist.length (sample_bin percent histogram_bins) = some i
       then 1 else 0))

lemma decay_eq (h : Nat) : decay h = 9 * h / 10 := by
  unfold decay
  have hcast : ((h : ℚ) * (9 / 10)) = ((9 * h : ℕ) : ℚ) / ((10 : ℕ) : ℚ) := by
    push_cast
    ring
  rw [hcast, Nat.floor_div_nat, Nat.floor_natCast]

/-- A 20-bin histogram whose bin 0 holds weight 10. -/
def histEx : List Nat := 10 :: List.replicate 19 0

lemma sample_bin_seven : sample_bin 7 histogram_bins = 1 := by
  unfold sample_bin histogram_bins
  norm_num

/-- C6 counterexample: after a sample of 7% (bin 1) on a histogram whose
bin 0 holds 10, the code leaves bin 0 at 10 — no bin is decayed — whereas
the claimed rule would decay it to `⌊10 × 0.9⌋ = 9`; the two update
functions differ at this input. -/
theorem histogram_no_decay_counterexample :
    (histogram_update histEx 7).getD 0 0 = 10 ∧
    (histogram_update_spec histEx 7).getD 0 0 = 9 ∧
    histogram_update histEx 7 ≠ histogram_update_spec histEx 7 := by
  have h1 : histogram_update histEx 7 = histEx.set 1 (histEx.getD 1 0 + 1) := by
    unfold histogram_update
    rw [sample_bin_seven]
    decide
  have h2 : histogram_update_spec histEx 7 =
      histEx.mapIdx (fun i h =>
        9 * h / 10 + (if pyListIndex histEx.length 1 = some i then 1 else 0)) := by
    unfold histogram_update_spec
    rw [sample_bin_seven]
    simp only [decay_eq]
  rw [h1, h2]
  refine ⟨by decide, by decide, by decide⟩

lemma pyListIndex_lt {n : Nat} {i : ℤ} {j : Nat} (h : pyListIndex n i = some j) :
    j < n := by
  unfold pyListIndex at h
  by_cases h1 : 0 ≤ i ∧ i < (n : ℤ)
  · rw [if_pos h1] at h
    simp only [Option.some.injEq] at h
    omega
  · rw [if_neg h1] at h
    by_cases h2 : -(n : ℤ) ≤ i ∧ i < 0
    · rw [if_pos h2] at h
      simp only [Option.some.injEq] at h
      omega
    · rw [if_neg h2] at h
      exact absurd h (by simp)

/-- C6 (amended): the histogram update increments the single bin the sample
falls in by exactly 1 and leaves every other bin — and the bin count —
unchanged; there is no decay. -/
theorem histogram_update_increments_single_bin (hist : List Nat) (p : ℚ)
    (j : Nat) (hj : pyListIndex hist.length (sample_bin p histogram_bins) = some j) :
    (histogram_update hist p).length = hist.length ∧
    (histogram_update hist p).getD j 0 = hist.getD j 0 + 1 ∧
    ∀ k, k ≠ j → (histogram_update hist p).getD k 0 = hist.getD k 0 := by
  have hjlt : j < hist.length := pyListIndex_lt hj
  unfold histogram_update
  rw [hj]
  refine ⟨by simp, ?_, ?_⟩
  · rw [List.getD_eq_getElem?_getD, List.getElem?_set_self (by omega), Option.getD_some]
  · intro k hk
    rw [List.getD_eq_getElem?_getD, List.getElem?_set_ne (by omega),
      ← List.getD_eq_getElem?_getD]

theorem histogram_update_increments_single_bin_witness :
    pyListIndex histEx.length (sample_bin 7 histogram_bins) = some 1 ∧
    ((histogram_update histEx 7).length = histEx.length ∧
     (histogram_update histEx 7).getD 1 0 = histEx.getD 1 0 + 1 ∧
     ∀ k, k ≠ 1 → (histogram_update histEx 7).getD k 0 = histEx.getD k 0) :=
  ⟨by rw [sample_bin_seven]; decide,
   histogram_update_increments_single_bin histEx 7 1
     (by rw [sample_bin_seven]; decide)⟩

/-- Python slice `l[i:]` semantics: a negative start counts from the end,
clamped at 0. -/
def pySliceFrom (l : List Nat) (i : ℤ) : List Nat :=
  if 0 ≤ i then l.drop i.toNat
  else l.drop ((l.length : ℤ) + i).toNat

/-- Models `MemoryMonitor.get_histogram_pressure_ratio(kind, threshold)`: the
fraction of histogram weight in the bins at or above
`cutoff_bin = int(threshold // 5)`; 0 on an empty histogram. -/
def get_histogram_pressure_ratio (hist : List Nat) (threshold : ℚ) : ℚ :=
  if hist.sum = 0 then 0
  else ((pySliceFrom hist ⌊threshold / 5⌋).sum : ℚ) / (hist.sum : ℚ)

/-- The `MemoryMonitor` state consulted by `check_load`, with its two
histograms and the configured thresholds and hysteresis
(`_spawn_hysteresis_time` = `spawn_buffer`). -/
structure MonitorSt where
  lastSpawnBlockChange : ℤ
  spawnBlockedState : Bool
  spawnHysteresisTime : ℤ
  memoryThreshold : ℚ
  cpuThreshold : ℚ
  histogramMemory : List Nat
  histogramCpu : List Nat
deriving DecidableEq

/-- Models `should_block` of `check_load`: either histogram ratio above the
sustained-pressure threshold 0.5. -/
def check_should_block (m : MonitorSt) : Prop :=
  1 / 2 < get_histogram_pressure_ratio m.histogramMemory m.memoryThreshold ∨
  1 / 2 < get_histogram_pressure_ratio m.histogramCpu m.cpuThreshold

instance (m : MonitorSt) : Decidable (check_should_block m) := by
  unfold check_should_block
  infer_instance

/-- Models `should_unblock` of `check_load`: both ratios below 0.3, or the
emergency unblock once `max_block_duration` has elapsed while blocked. -/
def check_should_unblock (m : MonitorSt) (maxBlockDuration now : ℤ) : Prop :=
  (get_histogram_pressure_ratio m.histogramMemory m.memoryThreshold < 3 / 10 ∧
   get_histogram_pressure_ratio m.histogramCpu m.cpuThreshold < 3 / 10) ∨
  (m.spawnBlockedState = true ∧
   maxBlockDuration ≤ now - m.lastSpawnBlockChange)

instance (m : MonitorSt) (d now : ℤ) : Decidable (check_should_unblock m d now) := by
  unfold check_should_unblock
  infer_instance

/-- Models `MemoryMonitor.check_load`: clear the blocked state when blocked,
`should_unblock` holds and the hysteresis has elapsed; set it when not
blocked, `should_block` holds and the hysteresis has elapsed; otherwise
leave the state (and `_last_spawn_block_change`) alone.  The resulting
`spawnBlockedState` is then assigned to the pool's `_spawn_blocked`. -/
def check_load (m : MonitorSt) (maxBlockDuration now : ℤ) : MonitorSt :=
  if m.spawnBlockedState = true ∧ check_should_unblock m maxBlockDuration now ∧
      m.spawnHysteresisTime ≤ now - m.lastSpawnBlockChange then
    { m with spawnBlockedState := false, lastSpawnBlockChange := now }
  else if m.spawnBlockedState = false ∧ check_should_block m ∧
      m.spawnHysteresisTime ≤ now - m.lastSpawnBlockChange then
    { m with spawnBlockedState := true, lastSpawnBlockChange := now }
  else
    m

/-- The spawn-block decision of one `resource_pressure_monitor` cycle
(lines 504-515): while blocked, stay blocked if under sustained pressure or
either average is above its release threshold; while unblocked, block if
under sustained pressure or either average is above its dynamic threshold.
The result is written to the pool by `set_spawn_blocked` every cycle — no
timestamp is consulted anywhere. -/
def resource_monitor_spawn_block (prevBlocked : Bool)
    (histMemRatio histCpuRatio avgMem avgCpu : ℚ)
    (dynamicMemThreshold dynamicCpuThreshold : ℚ)
    (memReleaseThreshold cpuReleaseThreshold : ℚ) : Bool :=
  if prevBlocked then
    decide (1 / 2 < histMemRatio ∨ 1 / 2 < histCpuRatio) ||
      decide (memReleaseThreshold < avgMem) || decide (cpuReleaseThreshold < avgCpu)
  else
    decide (1 / 2 < histMemRatio ∨ 1 / 2 < histCpuRatio) ||
      decide (dynamicMemThreshold < avgMem) || decide (dynamicCpuThreshold < avgCpu)

/-- C7 counterexample: the `resource_pressure_monitor` loop writes the
pool's `_spawn_blocked` every cycle through `set_spawn_blocked` using
`resource_monitor_spawn_block`, which takes no timestamp and no hysteresis
input at all.  With `scaling_check_interval = 1` and `spawn_buffer = 10`,
a high-average cycle at time 0 flips the pool's flag false → true and the
very next cycle at time 1 (averages back below the release thresholds)
flips it true → false: two opposite transitions 1 second apart, closer than
the 10-second hysteresis. -/
theorem pressure_monitor_no_hysteresis_counterexample :
    resource_monitor_spawn_block false 0 0 90 10 75 75 80 80 = true ∧
    resource_monitor_spawn_block true 0 0 10 10 75 75 80 80 = false ∧
    (1 : ℤ) - 0 < 10 := by
  refine ⟨?_, ?_, by decide⟩ <;> norm_num [resource_monitor_spawn_block]

/-- C7 (amended): `MemoryMonitor.check_load` itself does honour the
hysteresis — whenever less than `_spawn_hysteresis_time` has elapsed since
`_last_spawn_block_change`, it changes nothing (so two opposite transitions
made by `check_load` are always at least the hysteresis apart) — but the
`resource_pressure_monitor` loop overwrites the pool's flag each cycle with
no such gate (see the counterexample). -/
theorem check_load_hysteresis (m : MonitorSt) (maxBlockDuration now : ℤ)
    (h : now - m.lastSpawnBlockChange < m.spawnHysteresisTime) :
    check_load m maxBlockDuration now = m := by
  unfold check_load
  rw [if_neg (fun hc => absurd hc.2.2 (by omega)),
    if_neg (fun hc => absurd hc.2.2 (by omega))]

/-- A monitor state blocked at time 0 with a 10-second hysteresis. -/
def monitorEx : MonitorSt :=
  { lastSpawnBlockChange := 0, spawnBlockedState := true,
    spawnHysteresisTime := 10, memoryThreshold := 85, cpuThreshold := 85,
    histogramMemory := List.replicate 20 0, histogramCpu := List.replicate 20 0 }

theorem check_load_hysteresis_witness :
    (3 : ℤ) - monitorEx.lastSpawnBlockChange < monitorEx.spawnHysteresisTime ∧
    check_load monitorEx 30 3 = monitorEx :=
  ⟨by decide, check_load_hysteresis monitorEx 30 3 (by decide)⟩

/-! ## Task envelope and worker (`src/xauto/internal/dataclasses.py`,
`src/xauto/runtime/worker.py`, `src/xauto/runtime/task_manager.py`)

The runtime `TaskManager` enqueues `xauto.internal.dataclasses.TaskWrapper`
envelopes (`add_task`: `task_queue.put(TaskWrapper(task))`, so the payload
lands in `idx` and `tasks` stays `None`) and its workers are
`xauto.runtime.worker.Worker`, whose `run` loop evaluates `task.task`
before calling the processor. -/

/-- Models `TaskWrapper` of `dataclasses.py`: `__slots__ = (idx, retry_count,
tasks)`; `__init__(idx, tasks=None)` sets `retry_count = 0`.  The payload
type is `α`. -/
structure TaskWrapper (α : Type) where
  idx : α
  retry_count : Nat
  tasks : Option (List α)
deriving DecidableEq

/-- Models `TaskManager.add_task(task)`: the enqueued envelope `TaskWrapper(task)`. -/
def TaskWrapper.make (task : α) : TaskWrapper α :=
  { idx := task, retry_count := 0, tasks := none }

/-- A Python attribute value of a `TaskWrapper` instance. -/
inductive PyAttr (α : Type) where
  | payload (a : α)
  | natVal (n : Nat)
  | listVal (l : Option (List α))
deriving DecidableEq

/-- The attribute table a `TaskWrapper` instance exposes — exactly its
`__slots__`. -/
def TaskWrapper.attrs (t : TaskWrapper α) : List (String × PyAttr α) :=
  [("idx", .payload t.idx), ("retry_count", .natVal t.retry_count),
   ("tasks", .listVal t.tasks)]

/-- Python attribute lookup on a slotted `TaskWrapper` instance: `none`
means `AttributeError`. -/
def getattr (t : TaskWrapper α) (name : String) : Option (PyAttr α) :=
  (t.attrs.find? (fun p => p.1 = name)).map Prod.snd

/-- Outcome of the body of `Worker.run` for one dequeued envelope, at the
point `fn(task.task, self.driver)` (worker.py line 74): evaluating
`task.task` either yields an argument for the processor call or raises
`AttributeError` before `fn` is ever entered (the `except` branch then
treats it as a task failure: destroy driver, retry, eventually drop). -/
inductive WorkerTaskOutcome (α : Type) where
  | processorInvoked (arg : PyAttr α)
  | attributeError
deriving DecidableEq

/-- The worker's processor invocation on an envelope, modelling the
attribute read `task.task`. -/
def worker_invoke_processor (t : TaskWrapper α) : WorkerTaskOutcome α :=
  match getattr t "task" with
  | some v => .processorInvoked v
  | none => .attributeError

/-- C1 (code bug): for every enqueued envelope `TaskWrapper(task)`, the
worker's invocation reads the attribute `task`, which is NOT among the
fields `TaskWrapper` defines (`idx`, `retry_count`, `tasks`), so
`AttributeError` is raised and the processor is never invoked — the code
can never perform `processor(envelope.index, driver, envelope.batch)`.
(The sibling `xauto/utils/worker.py` defines its own `TaskWrapper` with a
`task` slot, which is what `runtime/worker.py` line 74 expects.) -/
theorem worker_reads_undefined_task_attribute (a : Nat) :
    worker_invoke_processor (TaskWrapper.make a) = .attributeError ∧
    getattr (TaskWrapper.make a) "task" = none ∧
    getattr (TaskWrapper.make a) "idx" = some (.payload a) ∧
    getattr (TaskWrapper.make a) "retry_count" = some (.natVal 0) ∧
    getattr (TaskWrapper.make a) "tasks" = some (.listVal none) := by
  refine ⟨rfl, rfl, rfl, rfl, rfl⟩

/-- The task queue: FIFO of envelopes (`none` = poison) plus the
`queue.Queue` unfinished-task counter (`put` increments it, `task_done`
decrements it, `join` returns once it is 0). -/
structure TaskQueueSt where
  items : List (Option Nat)
  unfinished : ℤ
deriving DecidableEq

/-- Models `task_queue.put(e)`. -/
def task_queue_put (q : TaskQueueSt) (e : Option Nat) : TaskQueueSt :=
  { items := q.items ++ [e], unfinished := q.unfinished + 1 }

/-- Models `task_queue.join()` returns iff every `put` has been matched by a
`task_done`. -/
def wait_completion_returns (q : TaskQueueSt) : Prop :=
  q.unfinished = 0

/-- Counters observed while a worker runs: processor invocation attempts,
`task_done` acknowledgements, and whether the worker exited on poison. -/
structure WorkerRunStats where
  attempts : Nat
  dones : Nat
  exited : Bool
deriving DecidableEq

/-- Models `Worker.run` under a processor that raises on every attempt (envelopes
carry their `retry_count`): dequeue the head; on poison acknowledge and
exit; on an envelope the attempt fails, `retry_count` is incremented, the
envelope is re-queued iff `retry_count ≤ _max_task_retries`, and the
dequeue is acknowledged (`finally: task_done`).  Fuel bounds the number of
loop iterations; an empty queue stops (the worker would block in `get`). -/
def worker_run_failing (maxRetries : Nat) :
    Nat → TaskQueueSt → WorkerRunStats → TaskQueueSt × WorkerRunStats
  | 0, q, st => (q, st)
  | fuel + 1, q, st =>
      match q.items with
      | [] => (q, st)
      | none :: rest =>
          ({ items := rest, unfinished := q.unfinished - 1 },
           { st with dones := st.dones + 1, exited := true })
      | some rc :: rest =>
          worker_run_failing maxRetries fuel
            { items := if rc + 1 ≤ maxRetries then rest ++ [some (rc + 1)] else rest,
              unfinished :=
                (if rc + 1 ≤ maxRetries then q.unfinished + 1 else q.unfinished) - 1 }
            { st with attempts := st.attempts + 1, dones := st.dones + 1 }

lemma worker_run_failing_drain (maxRetries : Nat) :
    ∀ (k rc : Nat) (u : ℤ) (st : WorkerRunStats), rc + k = maxRetries →
    worker_run_failing maxRetries (k + 1)
        { items := [some rc], unfinished := u } st =
      ({ items := [], unfinished := u - 1 },
       { attempts := st.attempts + k + 1, dones := st.dones + k + 1,
         exited := st.exited }) := by
  intro k
  induction k with
  | zero =>
      intro rc u st hrc
      unfold worker_run_failing
      simp only [List.nil_append]
      rw [if_neg (by omega), if_neg (by omega)]
      rfl
  | succ k ih =>
      intro rc u st hrc
      show worker_run_failing maxRetries (k + 1 + 1)
          { items := [some rc], unfinished := u } st = _
      unfold worker_run_failing
      simp only [List.nil_append]
      rw [if_pos (by omega), if_pos (by omega)]
      rw [ih (rc + 1) (u + 1 - 1)
        { st with attempts := st.attempts + 1, dones := st.dones + 1 } (by omega)]
      simp only [Prod.mk.injEq, TaskQueueSt.mk.injEq, WorkerRunStats.mk.injEq,
        and_true, true_and, eq_self_iff_true]
      omega

/-- C2: with retry limit `R = _max_task_retries`, a queue holding one
envelope (`retry_count = 0`) whose processing raises on every attempt is
dequeued and processed exactly `R + 1` times and then dropped (the queue is
empty, nothing re-queued), each dequeue acknowledged by exactly one
`task_done` (`dones = attempts`), leaving the unfinished count at 0 so
`wait_completion` (`queue.join`) returns; the poison subsequently enqueued
during shutdown is likewise acknowledged exactly once and the worker
exits. -/
theorem worker_retry_exhaustion_drops_and_completes (maxRetries : Nat) :
    worker_run_failing maxRetries (maxRetries + 1)
        { items := [some 0], unfinished := 1 }
        { attempts := 0, dones := 0, exited := false } =
      ({ items := [], unfinished := 0 },
       { attempts := maxRetries + 1, dones := maxRetries + 1, exited := false }) ∧
    wait_completion_returns { items := [], unfinished := 0 } ∧
    worker_run_failing maxRetries 1
        (task_queue_put { items := [], unfinished := 0 } none)
        { attempts := maxRetries + 1, dones := maxRetries + 1, exited := false } =
      ({ items := [], unfinished := 0 },
       { attempts := maxRetries + 1, dones := maxRetries + 2, exited := true }) := by
  refine ⟨?_, rfl, ?_⟩
  · rw [worker_run_failing_drain maxRetries maxRetries 0 1
      { attempts := 0, dones := 0, exited := false } (by omega)]
    simp only [Prod.mk.injEq, TaskQueueSt.mk.injEq, WorkerRunStats.mk.injEq,
      and_true, true_and, eq_self_iff_true]
    omega
  · unfold task_queue_put worker_run_failing
    simp only [List.nil_append]
    simp only [Prod.mk.injEq, TaskQueueSt.mk.injEq, WorkerRunStats.mk.injEq,
      and_true, true_and, eq_self_iff_true]
    omega

end Xauto
